import Mathlib

/-!
Verification of the raven GUI adapter (`raven-gui/src/main.rs`).

The adapter connects the egui windowing toolkit and the cpal audio backend
to the uxn/varvara virtual-machine core.  This file gives a shallow
embedding of the adapter's data model and per-tick loop and proves the
specification's claims about it.

Modelling conventions:
* Machine floats (`f32`, `f64`) are modelled as exact rationals `ℚ`; all
  concrete values appearing in the claims are exactly representable.
* Byte values (`u8`) are modelled as `Nat`; no arithmetic in the embedded
  code can overflow a byte (the button bitmask is at most 7).
* Fallible operations (panics such as `expect`, out-of-bounds indexing)
  are modelled with `Option` / an `Outcome` flag: `none` / `Outcome.fatal`
  stands for a panic that terminates the process.
* Calls into the VM/device collaborator (`dev.redraw`, `dev.char`,
  `dev.pressed`, `dev.released`, `dev.mouse`, `dev.console`, `dev.audio`)
  are fire-and-forget; the embedding records them as an emitted list of
  `VMCall`s in source order.  Host-side-only effects (repaint request,
  cursor icon, resize warning, texture upload, mesh drawing) are not part
  of that stream; the converted image is returned separately.
-/

namespace Raven

/-- `varvara::Key`, as used by `main.rs`: arrows, Home, the three modifier
keys, or a printable character byte. -/
inductive Key where
  | Up
  | Down
  | Left
  | Right
  | Home
  | Ctrl
  | Alt
  | Shift
  | Char (c : Nat)
deriving DecidableEq, Repr

/-- The egui physical-key identities named by `decode_key` in `main.rs`.
`Other` stands for every remaining `egui::Key` variant: each of those hits
the final `_ => return None` arm of the source `match`, so one constructor
represents them faithfully. -/
inductive EKey where
  | ArrowUp
  | ArrowDown
  | ArrowLeft
  | ArrowRight
  | Home
  | Num0
  | Num1
  | Num2
  | Num3
  | Num4
  | Num5
  | Num6
  | Num7
  | Num8
  | Num9
  | A
  | B
  | C
  | D
  | E
  | F
  | G
  | H
  | I
  | J
  | K
  | L
  | M
  | N
  | O
  | P
  | Q
  | R
  | S
  | T
  | U
  | V
  | W
  | X
  | Y
  | Z
  | Backtick
  | Backslash
  | Pipe
  | Comma
  | Equals
  | Plus
  | OpenBracket
  | Minus
  | Period
  | CloseBracket
  | Semicolon
  | Colon
  | Slash
  | Questionmark
  | Space
  | Tab
  | Enter
  | Other
deriving DecidableEq, Fintype, Repr

/-- The raw-text allow-list of `main.rs` (`RAW_CHARS`), in source order, as
ASCII byte values:
`" ' LBRACE RBRACE _ ) ( * & ^ % $ # @ ! ~` =
34 39 123 125 95 41 40 42 38 94 37 36 35 64 33 126. -/
def RAW_CHARS : List Nat :=
  [34, 39, 123, 125, 95, 41, 40, 42, 38, 94, 37, 36, 35, 64, 33, 126]

/-- `decode_key` of `main.rs`: the total pure table from (physical key,
shift held) to an optional `varvara::Key`.  Character bytes are ASCII:
digits 48..57, lowercase 97..122, uppercase 65..90, and the punctuation
codes noted inline. -/
def decode_key (k : EKey) (shift : Bool) : Option Key :=
  match k, shift with
  | .ArrowUp, _ => some .Up
  | .ArrowDown, _ => some .Down
  | .ArrowLeft, _ => some .Left
  | .ArrowRight, _ => some .Right
  | .Home, _ => some .Home
  | .Num0, false => some (.Char 48)
  | .Num0, true => some (.Char 41)   -- b')'
  | .Num1, false => some (.Char 49)
  | .Num1, true => some (.Char 33)   -- b'!'
  | .Num2, false => some (.Char 50)
  | .Num2, true => some (.Char 64)   -- b'@'
  | .Num3, false => some (.Char 51)
  | .Num3, true => some (.Char 35)   -- b'#'
  | .Num4, false => some (.Char 52)
  | .Num4, true => some (.Char 36)   -- b'$'
  | .Num5, false => some (.Char 53)
  | .Num5, true => some (.Char 53)   -- b'5' again (no '%' entry)
  | .Num6, false => some (.Char 54)
  | .Num6, true => some (.Char 94)   -- b'^'
  | .Num7, false => some (.Char 55)
  | .Num7, true => some (.Char 38)   -- b'&'
  | .Num8, false => some (.Char 56)
  | .Num8, true => some (.Char 42)   -- b'*'
  | .Num9, false => some (.Char 57)
  | .Num9, true => some (.Char 40)   -- b'('
  | .A, false => some (.Char 97)
  | .A, true => some (.Char 65)
  | .B, false => some (.Char 98)
  | .B, true => some (.Char 66)
  | .C, false => some (.Char 99)
  | .C, true => some (.Char 67)
  | .D, false => some (.Char 100)
  | .D, true => some (.Char 68)
  | .E, false => some (.Char 101)
  | .E, true => some (.Char 69)
  | .F, false => some (.Char 102)
  | .F, true => some (.Char 70)
  | .G, false => some (.Char 103)
  | .G, true => some (.Char 71)
  | .H, false => some (.Char 104)
  | .H, true => some (.Char 72)
  | .I, false => some (.Char 105)
  | .I, true => some (.Char 73)
  | .J, false => some (.Char 106)
  | .J, true => some (.Char 74)
  | .K, false => some (.Char 107)
  | .K, true => some (.Char 75)
  | .L, false => some (.Char 108)
  | .L, true => some (.Char 76)
  | .M, false => some (.Char 109)
  | .M, true => some (.Char 77)
  | .N, false => some (.Char 110)
  | .N, true => some (.Char 78)
  | .O, false => some (.Char 111)
  | .O, true => some (.Char 79)
  | .P, false => some (.Char 112)
  | .P, true => some (.Char 80)
  | .Q, false => some (.Char 113)
  | .Q, true => some (.Char 81)
  | .R, false => some (.Char 114)
  | .R, true => some (.Char 82)
  | .S, false => some (.Char 115)
  | .S, true => some (.Char 83)
  | .T, false => some (.Char 116)
  | .T, true => some (.Char 84)
  | .U, false => some (.Char 117)
  | .U, true => some (.Char 85)
  | .V, false => some (.Char 118)
  | .V, true => some (.Char 86)
  | .W, false => some (.Char 119)
  | .W, true => some (.Char 87)
  | .X, false => some (.Char 120)
  | .X, true => some (.Char 88)
  | .Y, false => some (.Char 121)
  | .Y, true => some (.Char 89)
  | .Z, false => some (.Char 122)
  | .Z, true => some (.Char 90)
  | .Backtick, false => some (.Char 96)
  | .Backtick, true => some (.Char 126)      -- b'~'
  | .Backslash, _ => some (.Char 92)
  | .Pipe, _ => some (.Char 124)
  | .Comma, false => some (.Char 44)
  | .Comma, true => some (.Char 60)          -- b'<'
  | .Equals, _ => some (.Char 61)
  | .Plus, _ => some (.Char 43)
  | .OpenBracket, false => some (.Char 91)
  | .OpenBracket, true => some (.Char 123)   -- left brace
  | .Minus, false => some (.Char 45)
  | .Minus, true => some (.Char 95)          -- b'_'
  | .Period, false => some (.Char 46)
  | .Period, true => some (.Char 62)         -- b'>'
  | .CloseBracket, false => some (.Char 93)
  | .CloseBracket, true => some (.Char 125)  -- right brace
  | .Semicolon, _ => some (.Char 59)
  | .Colon, _ => some (.Char 58)
  | .Slash, _ => some (.Char 47)
  | .Questionmark, _ => some (.Char 63)
  | .Space, _ => some (.Char 32)
  | .Tab, _ => some (.Char 9)
  | .Enter, _ => some (.Char 13)
  | .Other, _ => none

/-- `varvara::MouseState` as built by `Stage::update`: position, the scroll
delta drained this tick, and the button bitmask. -/
structure MouseState where
  pos : ℚ × ℚ
  scroll : ℚ × ℚ
  buttons : Nat
deriving DecidableEq, Repr

/-- An `egui::Color32` at the adapter/toolkit boundary: the four channel
bytes the adapter hands to `Color32::from_rgba_unmultiplied`, in (r, g, b,
alpha) order.  Toolkit internals are out of scope. -/
structure Color32 where
  r : Nat
  g : Nat
  b : Nat
  a : Nat
deriving DecidableEq, Repr

/-- `egui::Color32::BLACK`: opaque black. -/
def black : Color32 := ⟨0, 0, 0, 255⟩

/-- The VM's per-tick output snapshot (`varvara` `Output`), as read by
`Stage::update`: target size (width, height), the raw frame buffer (device
channel order, 4 bytes per pixel), the hide-pointer flag, and the outcome
of the deferred host-effects check `out.check()`.  The check's
implementation lives in the device-model collaborator, so its result is
carried as data; its error payload is abstracted as a numeric code. -/
structure OutputDescriptor where
  size : Nat × Nat
  frame : List Nat
  hide_mouse : Bool
  check_result : Except Nat Unit

/-- The egui events `Stage::update` inspects: decoded-text events (byte
sequences), key press/release events, scroll events, and `Other` for every
event kind the source's `_ => ()` arm ignores. -/
inductive EguiEvent where
  | Text (bytes : List Nat)
  | KeyEvent (key : EKey) (pressed : Bool)
  | Scroll (x y : ℚ)
  | Other

/-- One tick's host-supplied inputs, the data `Stage::update` reads from
`ctx.input`, the console channel and the device: current host time,
leveled modifier state, the event list in arrival order, the pointer's
latest position (`None` when no new position was reported), live button
state, an optional pending console byte, and the VM's output snapshot. -/
structure TickInput where
  time : ℚ
  ctrl : Bool
  alt : Bool
  shift : Bool
  events : List EguiEvent
  latest_pos : Option (ℚ × ℚ)
  primary_down : Bool
  middle_down : Bool
  secondary_down : Bool
  console_byte : Option Nat
  out : OutputDescriptor

/-- The mutable fields of `Stage` that the per-tick loop touches:
`next_frame`, the pending `scroll` accumulator, and `cursor_pos`. -/
structure StageState where
  next_frame : ℚ
  scroll : ℚ × ℚ
  cursor_pos : Option (ℚ × ℚ)

/-- A fire-and-forget call into the VM/device protocol, recorded in the
order `Stage::update` makes them. -/
inductive VMCall where
  | redraw
  | char (c : Nat)
  | pressed (k : Key)
  | released (k : Key)
  | mouse (m : MouseState)
  | console (c : Nat)
  | audio
deriving DecidableEq

/-- Whether the tick ran to completion or the process died in a panic
(`expect` on the host-effects check, or an out-of-bounds pixel index). -/
inductive Outcome where
  | normal
  | fatal
deriving DecidableEq, Repr

/-- The Frame Pacer check at the top of `Stage::update`:
`if i.time >= self.next_frame { self.next_frame = i.time + 0.015; redraw }`.
Returns the new deadline and whether a redraw was triggered. -/
def pacer_step (d t : ℚ) : ℚ × Bool :=
  if t ≥ d then (t + 0.015, true) else (d, false)

/-- The pacer driven over a list of host times: each entry of the trace is
(deadline before the tick, deadline after the tick, redraw triggered). -/
def pacer_run (d : ℚ) : List ℚ → List (ℚ × ℚ × Bool)
  | [] => []
  | t :: ts =>
    let st := pacer_step d t
    (d, st.1, st.2) :: pacer_run st.1 ts

/-- The deadline left after driving the pacer over a list of host times. -/
def pacer_final (d : ℚ) : List ℚ → ℚ
  | [] => d
  | t :: ts => pacer_final (pacer_step d t).1 ts

/-- `mkTimes n t`: the `n` host times `t, t + 0.001, …` advancing in 0.001
increments, the driving clock of the Frame Pacer scenario. -/
def mkTimes : Nat → ℚ → List ℚ
  | 0, _ => []
  | n + 1, t => t :: mkTimes n (t + 0.001)

/-- The event loop of `Stage::update` (`for e in i.events.iter()`): text
events forward each allow-listed byte via `dev.char`; key events decode via
`decode_key` and forward `dev.pressed`/`dev.released`; scroll events
accumulate into the pending scroll delta (`scroll.0 += s.x`,
`scroll.1 -= s.y`); other events are ignored.  Returns the emitted calls in
order and the scroll accumulator after the loop. -/
def processEvents (shift : Bool) : List EguiEvent → ℚ × ℚ → List VMCall × (ℚ × ℚ)
  | [], sc => ([], sc)
  | EguiEvent.Text bs :: es, sc =>
    let rest := processEvents shift es sc
    ((bs.filter (fun c => RAW_CHARS.contains c)).map VMCall.char ++ rest.1, rest.2)
  | EguiEvent.KeyEvent k pressed :: es, sc =>
    let rest := processEvents shift es sc
    (match decode_key k shift with
      | some kk => (if pressed then VMCall.pressed kk else VMCall.released kk) :: rest.1
      | none => rest.1,
     rest.2)
  | EguiEvent.Scroll x y :: es, sc => processEvents shift es (sc.1 + x, sc.2 - y)
  | EguiEvent.Other :: es, sc => processEvents shift es sc

/-- The button bitmask of `Stage::update`:
`[Primary, Middle, Secondary].into_iter().enumerate()
   .map(|(i, b)| (ptr.button_down(b) as u8) << i).fold(0, |a, b| a | b)`. -/
def buttonMask (p m s : Bool) : Nat :=
  (([p, m, s]).enum.map (fun pr => (cond pr.2 1 0) <<< pr.1)).foldl (fun a b => a ||| b) 0

/-- Rust's `slice::chunks(4)`: chunks of 4 in order, the last chunk possibly
shorter. -/
def chunks4 : List Nat → List (List Nat)
  | [] => []
  | [a0] => [[a0]]
  | [a0, a1] => [[a0, a1]]
  | [a0, a1, a2] => [[a0, a1, a2]]
  | a0 :: a1 :: a2 :: a3 :: rest => [a0, a1, a2, a3] :: chunks4 rest

/-- One pixel of the loop body
`*o = Color32::from_rgba_unmultiplied(i[2], i[1], i[0], i[3])`, for a chunk
already known to hold at least 4 bytes. -/
def convChunk (i : List Nat) : Color32 :=
  ⟨(i[2]?).getD 0, (i[1]?).getD 0, (i[0]?).getD 0, (i[3]?).getD 0⟩

/-- `out.frame.chunks(4).zip(image.pixels.iter_mut())` with the per-pixel
write: walks chunks and destination pixels together, stopping at the
shorter; indexing a short chunk (`i[2]` on fewer than 4 bytes) is a Rust
panic, modelled as `none`. -/
def fillPixels : List (List Nat) → List Color32 → Option (List Color32)
  | _, [] => some []
  | [], px => some px
  | i :: cs, _ :: os =>
    match i[2]?, i[1]?, i[0]?, i[3]? with
    | some r, some g, some b, some a =>
      match fillPixels cs os with
      | some rest => some (⟨r, g, b, a⟩ :: rest)
      | none => none
    | _, _, _, _ => none

/-- The Frame Presenter conversion of `Stage::update`: build a `w*h` image
of `Color32::BLACK` pixels, then overwrite from the frame buffer's 4-byte
chunks.  `none` models the panic on a ragged (length not a multiple of 4)
buffer whose short tail chunk is reached. -/
def convertFrame (frame : List Nat) (w h : Nat) : Option (List Color32) :=
  fillPixels (chunks4 frame) (List.replicate (w * h) black)

/-- One invocation of `Stage::update`, in source order: the pacer check
(possible `dev.redraw`), the event loop, leveled modifier forwarding,
cursor-position update, the button bitmask, the single `dev.mouse` call
with the drained scroll delta, the opportunistic console byte
(`dev.console`), the audio hook (`dev.audio`), the frame conversion, and
finally `out.check().expect(..)`, whose failure (or a conversion panic) is
a fatal outcome.  Returns the new stage state, the emitted VM calls in
order, the converted image, and the tick's outcome. -/
def update (s : StageState) (inp : TickInput) :
    StageState × List VMCall × Option (List Color32) × Outcome :=
  let pr := pacer_step s.next_frame inp.time
  let redrawCalls := if pr.2 then [VMCall.redraw] else []
  let pe := processEvents inp.shift inp.events s.scroll
  let modCalls := [(inp.ctrl, Key.Ctrl), (inp.alt, Key.Alt), (inp.shift, Key.Shift)].map
    (fun bk => if bk.1 then VMCall.pressed bk.2 else VMCall.released bk.2)
  let cursor2 := match inp.latest_pos with
    | some p => some p
    | none => s.cursor_pos
  let btns := buttonMask inp.primary_down inp.middle_down inp.secondary_down
  let m : MouseState := ⟨cursor2.getD (0, 0), pe.2, btns⟩
  let consoleCalls := match inp.console_byte with
    | some c => [VMCall.console c]
    | none => []
  let img := convertFrame inp.out.frame inp.out.size.1 inp.out.size.2
  let outcome := match img with
    | none => Outcome.fatal
    | some _ =>
      match inp.out.check_result with
      | Except.ok _ => Outcome.normal
      | Except.error _ => Outcome.fatal
  (⟨pr.1, (0, 0), cursor2⟩,
   redrawCalls ++ pe.1 ++ modCalls ++ [VMCall.mouse m] ++ consoleCalls ++ [VMCall.audio],
   img, outcome)

/-- The main loop: `Stage::update` once per tick, threading the stage
state; collects each tick's emitted VM calls. -/
def runTicks (s : StageState) : List TickInput → List (List VMCall)
  | [] => []
  | i :: is => (update s i).2.1 :: runTicks (update s i).1 is

/-- Projection of a VM call to a component of a forwarded `MouseState`
(`none` on every non-mouse call). -/
def mouseProj (f : MouseState → α) : VMCall → Option α
  | VMCall.mouse m => some (f m)
  | _ => none

/-- The (x, y) payload of a scroll event, `none` for other events. -/
def scrollOf : EguiEvent → Option (ℚ × ℚ)
  | EguiEvent.Scroll x y => some (x, y)
  | _ => none

/-- The spec's sticky-pointer policy, for comparison with `update`: each
tick's forwarded position is the latest observed position, retained across
ticks and defaulting to the origin while none has been observed.  `c` is
the position remembered so far. -/
def stickyPositions (c : Option (ℚ × ℚ)) : List (Option (ℚ × ℚ)) → List (ℚ × ℚ)
  | [] => []
  | p :: ps =>
    let c2 := p.or c
    c2.getD (0, 0) :: stickyPositions c2 ps

/-- cpal's `SupportedStreamConfigRange` at the `audio_setup` boundary: a
channel count and an inclusive sample-rate range.  The audio backend's
internals are out of scope; this is the negotiation interface `main.rs`
consumes. -/
structure SupportedStreamConfigRange where
  channels : Nat
  min_sample_rate : Nat
  max_sample_rate : Nat
deriving DecidableEq, Repr

/-- cpal's `SupportedStreamConfig`: a concrete format with a fixed sample
rate. -/
structure SupportedStreamConfig where
  channels : Nat
  sample_rate : Nat
deriving DecidableEq, Repr

/-- cpal's `SupportedStreamConfigRange::try_with_sample_rate`: `some` of
the concrete config at rate `r` when `r` lies in the range. -/
def try_with_sample_rate (cfg : SupportedStreamConfigRange) (r : Nat) :
    Option SupportedStreamConfig :=
  if cfg.min_sample_rate ≤ r ∧ r ≤ cfg.max_sample_rate then some ⟨cfg.channels, r⟩
  else none

/-- `varvara::AUDIO_SAMPLE_RATE`, the fixed rate required at negotiation
(44100 per the specification's constants). -/
def AUDIO_SAMPLE_RATE : Nat := 44100

/-- `varvara::AUDIO_CHANNELS`, the fixed channel count required at
negotiation (4 per the specification; `audio_setup` also takes exactly 4
stream-data slots). -/
def AUDIO_CHANNELS : Nat := 4

/-- The format-negotiation core of `audio_setup`:
`supported_configs_range.find_map(|c| c.try_with_sample_rate(RATE))
   .filter(|c| usize::from(c.channels()) == AUDIO_CHANNELS)`.
`none` models the `expect("no supported config?")` panic. -/
def negotiate (configs : List SupportedStreamConfigRange) : Option SupportedStreamConfig :=
  (configs.findSome? (fun cfg => try_with_sample_rate cfg AUDIO_SAMPLE_RATE)).filter
    (fun cfg => cfg.channels == AUDIO_CHANNELS)

/-- An output snapshot with nothing to draw and a passing check, for
concrete test ticks. -/
def emptyOut : OutputDescriptor := ⟨(0, 0), [], false, Except.ok ()⟩

/-- A tick with no input activity at host time 0. -/
def quietTick : TickInput :=
  ⟨0, false, false, false, [], none, false, false, false, none, emptyOut⟩

/-- The initial stage state built by `Stage::new`: `next_frame = 0.0`, no
pending scroll, no cursor position observed yet. -/
def s0 : StageState := ⟨0, (0, 0), none⟩

/-- First tick of the scroll scenario: host scroll events (+3, +2) then
(+1, -5). -/
def c4tick1 : TickInput :=
  { quietTick with events := [EguiEvent.Scroll 3 2, EguiEvent.Scroll 1 (-5)] }

/-- Second tick of the scroll scenario: no scroll events. -/
def c4tick2 : TickInput := quietTick

/-- A tick whose host-effects check fails (error code 0). -/
def c7tick : TickInput :=
  { quietTick with out := ⟨(0, 0), [], false, Except.error 0⟩ }

/-! ### Helper lemmas about the emitted call stream -/

theorem mouseProj_char {α : Type} (f : MouseState → α) (ch : Nat) :
    mouseProj f (VMCall.char ch) = none := rfl

theorem mouseProj_console_call {α : Type} (f : MouseState → α) (ch : Nat) :
    mouseProj f (VMCall.console ch) = none := rfl

theorem mouseProj_mouse {α : Type} (f : MouseState → α) (m : MouseState) :
    mouseProj f (VMCall.mouse m) = some (f m) := rfl

theorem mouseProj_pressed {α : Type} (f : MouseState → α) (k : Key) :
    mouseProj f (VMCall.pressed k) = none := rfl

theorem mouseProj_released {α : Type} (f : MouseState → α) (k : Key) :
    mouseProj f (VMCall.released k) = none := rfl

theorem mouseProj_audio {α : Type} (f : MouseState → α) :
    mouseProj f VMCall.audio = none := rfl

theorem mouseProj_redraw {α : Type} (f : MouseState → α) :
    mouseProj f VMCall.redraw = none := rfl

theorem mouseProj_mod {α : Type} (f : MouseState → α) (b : Bool) (k : Key) :
    mouseProj f (if b then VMCall.pressed k else VMCall.released k) = none := by
  cases b <;> rfl

theorem filterMap_mouseProj_redraw {α : Type} (f : MouseState → α) (b : Bool) :
    (if b then [VMCall.redraw] else []).filterMap (mouseProj f) = [] := by
  cases b <;> rfl

/-- The event loop emits no mouse call: `dev.mouse` happens exactly once,
after the loop. -/
theorem mouseProj_processEvents {α : Type} (f : MouseState → α) (shift : Bool)
    (es : List EguiEvent) (sc : ℚ × ℚ) :
    ((processEvents shift es sc).1).filterMap (mouseProj f) = [] := by
  induction es generalizing sc with
  | nil => simp [processEvents]
  | cons e es ih =>
    cases e with
    | Text bs =>
      simp [processEvents, List.filterMap_append, List.filterMap_map, ih,
        Function.comp, mouseProj_char]
    | KeyEvent k pressed =>
      rcases hd : decode_key k shift with _ | kk
      · simp [processEvents, hd, ih]
      · cases pressed <;>
          simp [processEvents, hd, List.filterMap_cons, mouseProj_pressed,
            mouseProj_released, ih]
    | Scroll x y => simp [processEvents, ih]
    | Other => simp [processEvents, ih]

/-- The single mouse call of a tick, projected: its position is the sticky
cursor, its scroll the event loop's accumulator, its buttons the bitmask of
the live button state. -/
theorem update_mouse {α : Type} (f : MouseState → α) (s : StageState) (inp : TickInput) :
    ((update s inp).2.1).filterMap (mouseProj f)
      = [f ⟨((inp.latest_pos).or s.cursor_pos).getD (0, 0),
            (processEvents inp.shift inp.events s.scroll).2,
            buttonMask inp.primary_down inp.middle_down inp.secondary_down⟩] := by
  unfold update
  cases hlp : inp.latest_pos <;> cases hcb : inp.console_byte <;>
    simp [List.filterMap_append, mouseProj_processEvents, filterMap_mouseProj_redraw,
      mouseProj_mod, mouseProj_mouse, mouseProj_console_call, mouseProj_audio,
      Option.or]

/-- The stage state after a tick: pacer deadline stepped, scroll
accumulator drained to (0, 0) by `std::mem::take`, cursor position sticky. -/
theorem update_state (s : StageState) (inp : TickInput) :
    (update s inp).1
      = ⟨(pacer_step s.next_frame inp.time).1, (0, 0), (inp.latest_pos).or s.cursor_pos⟩ := by
  unfold update
  cases inp.latest_pos <;> simp [Option.or]

/-! ### Claim theorems -/

/-- Claim C1, counterexample: with the backend offering, in order,
(44100 Hz, 1 ch), (48000 Hz, 4 ch), (44100 Hz, 4 ch), negotiation fails
(`expect` panics) even though the offered format (44100 Hz, 4 ch) matches
both the required sample rate and the required channel count: `find_map`
stops at the first rate-matching format, (44100 Hz, 1 ch), and the channel
filter then rejects it. -/
theorem c1_counterexample :
    negotiate [⟨1, 44100, 44100⟩, ⟨4, 48000, 48000⟩, ⟨4, 44100, 44100⟩] = none
  ∧ (⟨4, 44100, 44100⟩ : SupportedStreamConfigRange)
      ∈ [(⟨1, 44100, 44100⟩ : SupportedStreamConfigRange), ⟨4, 48000, 48000⟩,
         ⟨4, 44100, 44100⟩]
  ∧ try_with_sample_rate ⟨4, 44100, 44100⟩ AUDIO_SAMPLE_RATE
      = some ⟨AUDIO_CHANNELS, AUDIO_SAMPLE_RATE⟩ :=
  ⟨by decide, by decide, by decide⟩

/-- Claim C1, amended: negotiation inspects only the FIRST offered format
whose sample-rate range contains the required rate.  Any selected format
matches both the required rate and channel count and comes from the offered
list; when that first rate-match also has the required channel count it is
selected; when no offered format matches the rate, setup fails fatally; and
(per the counterexample) setup can also fail fatally although a fully
matching format is offered later.  With the matching format offered first,
exactly (44100, 4) is selected. -/
theorem c1_amended :
    (∀ configs cfg, negotiate configs = some cfg →
        cfg.sample_rate = AUDIO_SAMPLE_RATE ∧ cfg.channels = AUDIO_CHANNELS
      ∧ ∃ r ∈ configs, try_with_sample_rate r AUDIO_SAMPLE_RATE = some cfg)
  ∧ (∀ configs cfg,
        configs.findSome? (fun r => try_with_sample_rate r AUDIO_SAMPLE_RATE) = some cfg →
        cfg.channels = AUDIO_CHANNELS → negotiate configs = some cfg)
  ∧ (∀ configs,
        configs.findSome? (fun r => try_with_sample_rate r AUDIO_SAMPLE_RATE) = none →
        negotiate configs = none)
  ∧ negotiate [⟨4, 44100, 44100⟩, ⟨1, 44100, 44100⟩, ⟨4, 48000, 48000⟩]
      = some ⟨4, 44100⟩ := by
  refine ⟨?_, ?_, ?_, by decide⟩
  · intro configs cfg h
    unfold negotiate at h
    rcases hf : configs.findSome? (fun c => try_with_sample_rate c AUDIO_SAMPLE_RATE)
      with _ | c0
    · rw [hf] at h
      simp [Option.filter] at h
    · rw [hf] at h
      simp only [Option.filter] at h
      split at h
      · rename_i hch
        injection h with hc
        subst hc
        obtain ⟨r, hr, htry⟩ := List.exists_of_findSome?_eq_some hf
        have hsr : c0.sample_rate = AUDIO_SAMPLE_RATE := by
          unfold try_with_sample_rate at htry
          split at htry
          · injection htry with h2
            rw [← h2]
          · exact absurd htry (by simp)
        exact ⟨hsr, by simpa using hch, r, hr, htry⟩
      · exact absurd h (by simp)
  · intro configs cfg hf hch
    unfold negotiate
    rw [hf]
    simp [Option.filter, hch]
  · intro configs hf
    unfold negotiate
    rw [hf]
    rfl

/-- Claim C3, counterexample: the byte 33 (the character b'!') is in the
raw-text allow-list RAW_CHARS and is also produced by the Key Decoder for
the physical keystroke (Num1, shift held), so the two paths are not
disjoint. -/
theorem c3_counterexample :
    33 ∈ RAW_CHARS ∧ decode_key EKey.Num1 true = some (Key.Char 33) :=
  ⟨by decide, rfl⟩

/-- Claim C3, amended: the allow-list and the Key Decoder's character range
are NOT disjoint.  Exactly 13 of the 16 allow-listed bytes are also
producible by `decode_key` for some (key, shift) — all but 34 (double
quote), 39 (single quote) and 37 (percent); those three are deliverable
only through the raw-text path. -/
theorem c3_amended :
    RAW_CHARS.filter (fun ch => decide (∃ k s, decode_key k s = some (Key.Char ch)))
      = [123, 125, 95, 41, 40, 42, 38, 94, 36, 35, 64, 33, 126]
  ∧ RAW_CHARS.filter (fun ch => ! decide (∃ k s, decode_key k s = some (Key.Char ch)))
      = [34, 39, 37] :=
  ⟨by decide, by decide⟩

/-- Claim C6: the MouseState button bitmask has bit i set iff button i is
down, in the order primary = bit 0, middle = bit 1, secondary = bit 2;
only-secondary yields 0b100 = 4, primary+middle yields 0b011 = 3, all
released yields 0; and the tick's one forwarded MouseState carries exactly
this bitmask of the live button state. -/
theorem c6_button_bitmask :
    (∀ p m s : Bool,
        (buttonMask p m s).testBit 0 = p
      ∧ (buttonMask p m s).testBit 1 = m
      ∧ (buttonMask p m s).testBit 2 = s)
  ∧ buttonMask false false true = 4
  ∧ buttonMask true true false = 3
  ∧ buttonMask false false false = 0
  ∧ (∀ s inp, ((update s inp).2.1).filterMap (mouseProj (fun mm => mm.buttons))
      = [buttonMask inp.primary_down inp.middle_down inp.secondary_down]) :=
  ⟨by decide, by decide, by decide, by decide,
   fun s inp => update_mouse (fun mm => mm.buttons) s inp⟩

/-- Claim C7: the per-tick host-effects check is fatal on error and silent
on success: provided the frame conversion itself did not panic, the tick's
outcome is `normal` exactly when `out.check()` returned ok, and `fatal`
(process terminates, no retry, no degraded mode) exactly when it returned
an error. -/
theorem c7_check_fatal (s : StageState) (inp : TickInput) (img : List Color32)
    (h : convertFrame inp.out.frame inp.out.size.1 inp.out.size.2 = some img) :
    (update s inp).2.2.2
      = match inp.out.check_result with
        | Except.ok _ => Outcome.normal
        | Except.error _ => Outcome.fatal := by
  cases hc : inp.out.check_result <;> simp [update, h, hc]

/-- Claim C7, witness: at a concrete tick whose check fails with error
code 0 (and whose empty frame converts fine), the outcome is fatal. -/
theorem c7_check_fatal_witness : (update s0 c7tick).2.2.2 = Outcome.fatal :=
  c7_check_fatal s0 c7tick [] rfl

/-- Claim C8: the per-pixel conversion applies the fixed channel
permutation (device bytes [d0, d1, d2, d3] become display channels
(r, g, b) = (d2, d1, d0)) with the alpha byte passed through unchanged; in
particular device pixel [10, 20, 30, 40] becomes display pixel
(30, 20, 10) with alpha exactly 40. -/
theorem c8_pixel_conversion :
    convertFrame [10, 20, 30, 40] 1 1 = some [⟨30, 20, 10, 40⟩]
  ∧ ∀ d0 d1 d2 d3 : Nat, convertFrame [d0, d1, d2, d3] 1 1 = some [⟨d2, d1, d0, d3⟩] :=
  ⟨rfl, fun _ _ _ _ => rfl⟩

/-- Claim C5: on every tick exactly one MouseState is forwarded to the
VM's mouse protocol, and its position follows the sticky-pointer policy:
the latest observed position, retained across ticks when no new position
arrives, and the origin (0, 0) on every tick before any position has been
observed.  Stated as: over any run, each tick's stream of forwarded mouse
positions is exactly the singleton predicted by `stickyPositions`. -/
theorem c5_mouse_forwarding (s : StageState) (inputs : List TickInput) :
    (runTicks s inputs).map (fun cs => cs.filterMap (mouseProj (fun mm => mm.pos)))
      = (stickyPositions s.cursor_pos (inputs.map (fun i => i.latest_pos))).map
          (fun p => [p]) := by
  induction inputs generalizing s with
  | nil => simp [runTicks, stickyPositions]
  | cons i is ih =>
    simp only [runTicks, List.map_cons, stickyPositions]
    rw [update_mouse, ih, update_state]

/-- Claim C4, counterexample: with host scroll events (+3, +2) and
(+1, -5) in one tick and none in the next, the flushed scroll delta of the
first tick is (4, 3) — the code computes `scroll.1 -= s.y`, so the y sum
(+2) + (-5) = -3 is inverted to +3 — not the claimed (4, -3). -/
theorem c4_counterexample :
    (runTicks s0 [c4tick1, c4tick2]).map
        (fun cs => cs.filterMap (mouseProj (fun mm => mm.scroll)))
      = [[((4 : ℚ), (3 : ℚ))], [(0, 0)]]
  ∧ ((4 : ℚ), (3 : ℚ)) ≠ ((4 : ℚ), (-3 : ℚ)) := by
  constructor
  · simp [runTicks, update_mouse, update_state, c4tick1, c4tick2, quietTick, s0,
      processEvents]
    norm_num
  · intro h
    rw [Prod.ext_iff] at h
    exact absurd h.2 (by norm_num)

/-- Claim C4, amended: scroll accumulation is exactly additive per axis
with y inverted relative to the host convention (x adds, y subtracts), the
scenario's two events (+3, +2), (+1, -5) flush as (4, 3) on the first tick
and (0, 0) on the second, the accumulator is drained to (0, 0) whenever
the MouseState is built, and each tick's one forwarded MouseState carries
the event loop's accumulated delta. -/
theorem c4_amended :
    (runTicks s0 [c4tick1, c4tick2]).map
        (fun cs => cs.filterMap (mouseProj (fun mm => mm.scroll)))
      = [[((4 : ℚ), (3 : ℚ))], [(0, 0)]]
  ∧ (∀ shift es sc, (processEvents shift es sc).2
      = (sc.1 + ((es.filterMap scrollOf).map Prod.fst).sum,
         sc.2 - ((es.filterMap scrollOf).map Prod.snd).sum))
  ∧ (∀ s inp, ((update s inp).1).scroll = (0, 0))
  ∧ (∀ s inp, ((update s inp).2.1).filterMap (mouseProj (fun mm => mm.scroll))
      = [(processEvents inp.shift inp.events s.scroll).2]) := by
  refine ⟨?_, ?_, ?_, fun s inp => update_mouse (fun mm => mm.scroll) s inp⟩
  · simp [runTicks, update_mouse, update_state, c4tick1, c4tick2, quietTick, s0,
      processEvents]
    norm_num
  · intro shift es sc
    induction es generalizing sc with
    | nil => simp [processEvents, scrollOf]
    | cons e es ih =>
      cases e with
      | Scroll x y =>
        simp only [processEvents, scrollOf, ih, List.filterMap_cons, List.map_cons,
          List.sum_cons]
        rw [Prod.ext_iff]
        constructor <;> dsimp only <;> ring
      | Text bs => simp [processEvents, scrollOf, ih]
      | KeyEvent k pressed =>
        rcases hd : decode_key k shift with _ | kk <;>
          simp [processEvents, hd, scrollOf, ih]
      | Other => simp [processEvents, scrollOf, ih]
  · intro s inp
    rw [update_state]

/-! ### The Frame Pacer scenario -/

theorem pacer_step_fire (d t : ℚ) (h : t ≥ d) : pacer_step d t = (t + 0.015, true) := by
  unfold pacer_step
  rw [if_pos h]

theorem pacer_step_skip (d t : ℚ) (h : ¬ t ≥ d) : pacer_step d t = (d, false) := by
  unfold pacer_step
  rw [if_neg h]

theorem pacer_run_append (d : ℚ) (ts1 ts2 : List ℚ) :
    pacer_run d (ts1 ++ ts2) = pacer_run d ts1 ++ pacer_run (pacer_final d ts1) ts2 := by
  induction ts1 generalizing d with
  | nil => simp [pacer_run, pacer_final]
  | cons t ts ih => simp [pacer_run, pacer_final, ih]

theorem pacer_final_append (d : ℚ) (ts1 ts2 : List ℚ) :
    pacer_final d (ts1 ++ ts2) = pacer_final (pacer_final d ts1) ts2 := by
  induction ts1 generalizing d with
  | nil => simp [pacer_final]
  | cons t ts ih => simp [pacer_final, ih]

theorem mkTimes_add (a b : Nat) (t : ℚ) :
    mkTimes (a + b) t = mkTimes a t ++ mkTimes b (t + (a : ℚ) * 0.001) := by
  induction a generalizing t with
  | zero => simp [mkTimes]
  | succ a ih =>
    have h1 : a + 1 + b = (a + b) + 1 := by omega
    rw [h1]
    simp only [mkTimes, ih, List.cons_append]
    have h2 : t + 0.001 + (a : ℚ) * 0.001 = t + ((a : ℚ) + 1) * 0.001 := by ring
    rw [h2]
    have h3 : ((a + 1 : Nat) : ℚ) = (a : ℚ) + 1 := by push_cast; ring
    rw [h3]

/-- Ticks strictly before the deadline trigger nothing and leave the
deadline unchanged. -/
theorem pacer_no_fire (n : Nat) (d t : ℚ) (h : t + (n : ℚ) * 0.001 ≤ d) :
    pacer_run d (mkTimes n t) = List.replicate n (d, d, false)
  ∧ pacer_final d (mkTimes n t) = d := by
  induction n generalizing t with
  | zero => simp [mkTimes, pacer_run, pacer_final]
  | succ n ih =>
    have hc : ((n + 1 : Nat) : ℚ) = (n : ℚ) + 1 := by push_cast; ring
    rw [hc] at h
    have hpos : (0 : ℚ) < ((n : ℚ) + 1) * 0.001 := by positivity
    have hlt : ¬ t ≥ d := by
      simp only [ge_iff_le, not_le]
      nlinarith
    have hnext : (t + 0.001) + (n : ℚ) * 0.001 ≤ d := by nlinarith
    obtain ⟨h1, h2⟩ := ih (t + 0.001) hnext
    refine ⟨?_, ?_⟩
    · simp [mkTimes, pacer_run, pacer_step_skip d t hlt, h1, List.replicate_succ]
    · simp [mkTimes, pacer_final, pacer_step_skip d t hlt, h2]

/-- A block that starts exactly at the deadline: the first tick fires and
advances the deadline by exactly one quantum; the next `n ≤ 14` ticks
(0.001 apart) stay below the new deadline and fire nothing. -/
theorem pacer_fire_block (n : Nat) (d : ℚ) (hn : n ≤ 14) :
    pacer_run d (mkTimes (n + 1) d)
      = (d, d + 0.015, true) :: List.replicate n (d + 0.015, d + 0.015, false)
  ∧ pacer_final d (mkTimes (n + 1) d) = d + 0.015 := by
  have hN : (n : ℚ) ≤ 14 := by exact_mod_cast hn
  have hcond : (d + 0.001) + (n : ℚ) * 0.001 ≤ d + 0.015 := by nlinarith
  obtain ⟨h1, h2⟩ := pacer_no_fire n (d + 0.015) (d + 0.001) hcond
  refine ⟨?_, ?_⟩
  · simp [mkTimes, pacer_run, pacer_step_fire d d (le_refl d), h1]
  · simp [mkTimes, pacer_final, pacer_step_fire d d (le_refl d), h2]

/-- `k` whole quantum periods starting at the deadline: exactly `k`
redraws, every firing tick advances the deadline by exactly one quantum,
and the final deadline is `k` quanta later. -/
theorem pacer_blocks (k : Nat) (d : ℚ) :
    (pacer_run d (mkTimes (15 * k) d)).countP (fun r => r.2.2) = k
  ∧ (∀ r ∈ pacer_run d (mkTimes (15 * k) d), r.2.2 = true → r.2.1 = r.1 + 0.015)
  ∧ pacer_final d (mkTimes (15 * k) d) = d + (k : ℚ) * 0.015 := by
  induction k generalizing d with
  | zero => simp [mkTimes, pacer_run, pacer_final]
  | succ k ih =>
    have h15 : 15 * (k + 1) = 15 + 15 * k := by ring
    rw [h15, mkTimes_add 15 (15 * k) d]
    have hc : d + ((15 : Nat) : ℚ) * 0.001 = d + 0.015 := by push_cast; norm_num
    rw [hc]
    obtain ⟨hb1, hb2⟩ := pacer_fire_block 14 d (by norm_num)
    have h15d : (15 : Nat) = 14 + 1 := rfl
    rw [pacer_run_append, pacer_final_append, h15d, hb1, hb2]
    obtain ⟨ih1, ih2, ih3⟩ := ih (d + 0.015)
    refine ⟨?_, ?_, ?_⟩
    · simp [List.countP_append, List.countP_cons, List.countP_replicate, ih1]
    · intro r hr htrig
      rcases List.mem_append.mp hr with hr1 | hr2
      · rcases List.mem_cons.mp hr1 with rfl | hrep
        · simp
        · have : r = (d + 0.015, d + 0.015, false) := List.eq_of_mem_replicate hrep
          rw [this] at htrig
          exact absurd htrig (by simp)
      · exact ih2 r hr2 htrig
    · rw [ih3]
      push_cast
      ring

/-- Claim C2: driven by host times 0.000, 0.001, …, 0.200 (201 ticks) with
the deadline starting at 0.0 and quantum 0.015, the pacer triggers exactly
floor(0.200 / 0.015) + 1 = 14 redraws, and every triggered redraw advances
the scheduled deadline by exactly one quantum.  (Real arithmetic is
modelled exactly over ℚ.) -/
theorem c2_frame_pacer :
    ((pacer_run 0 (mkTimes 201 0)).countP (fun r => r.2.2)
        = (⌊(0.200 : ℚ) / 0.015⌋).toNat + 1)
  ∧ ∀ r ∈ pacer_run 0 (mkTimes 201 0), r.2.2 = true → r.2.1 = r.1 + 0.015 := by
  have hfloor : (⌊(0.200 : ℚ) / 0.015⌋).toNat + 1 = 14 := by
    have : ⌊(0.200 : ℚ) / 0.015⌋ = 13 := by
      rw [Int.floor_eq_iff]
      norm_num
    rw [this]
    rfl
  have hdecomp : (201 : Nat) = 15 * 13 + 6 := by norm_num
  rw [hdecomp, mkTimes_add (15 * 13) 6 0]
  have hc : (0 : ℚ) + ((15 * 13 : Nat) : ℚ) * 0.001 = 0.195 := by push_cast; norm_num
  rw [hc]
  obtain ⟨hcount, hall, hfinal⟩ := pacer_blocks 13 0
  rw [pacer_run_append, hfinal]
  have hfin : (0 : ℚ) + ((13 : Nat) : ℚ) * 0.015 = 0.195 := by push_cast; norm_num
  rw [hfin]
  obtain ⟨htr, _⟩ := pacer_fire_block 5 0.195 (by norm_num)
  have h6 : (6 : Nat) = 5 + 1 := rfl
  rw [h6, htr]
  constructor
  · rw [hfloor]
    simp [List.countP_append, List.countP_cons, List.countP_replicate, hcount]
  · intro r hr htrig
    rcases List.mem_append.mp hr with hr1 | hr2
    · exact hall r hr1 htrig
    · rcases List.mem_cons.mp hr2 with rfl | hrep
      · norm_num
      · have : r = (0.195 + 0.015, 0.195 + 0.015, false) := List.eq_of_mem_replicate hrep
        rw [this] at htrig
        exact absurd htrig (by simp)

/-! ### Frame-conversion totality -/

theorem length_four_cases {l : List Nat} (h : l.length = 4) :
    ∃ b0 b1 b2 b3, l = [b0, b1, b2, b3] := by
  rcases l with _ | ⟨b0, _ | ⟨b1, _ | ⟨b2, _ | ⟨b3, rest⟩⟩⟩⟩
  · simp at h
  · simp at h
  · simp at h
  · simp at h
  · have hr : rest = [] := by
      simp only [List.length_cons] at h
      exact List.length_eq_zero.mp (by omega)
    exact ⟨b0, b1, b2, b3, by rw [hr]⟩

/-- A frame of 4-byte pixels (length divisible by 4) chunks into chunks of
exactly 4 bytes. -/
theorem chunks4_all_four : ∀ (l : List Nat), 4 ∣ l.length →
    ∀ ch ∈ chunks4 l, ch.length = 4 := by
  intro l
  induction l using chunks4.induct with
  | case1 =>
    intro _ ch hch
    simp [chunks4] at hch
  | case2 a0 =>
    intro h
    exfalso
    simp only [List.length_cons, List.length_nil] at h
    omega
  | case3 a0 a1 =>
    intro h
    exfalso
    simp only [List.length_cons, List.length_nil] at h
    omega
  | case4 a0 a1 a2 =>
    intro h
    exfalso
    simp only [List.length_cons, List.length_nil] at h
    omega
  | case5 a0 a1 a2 a3 rest ih =>
    intro h ch hch
    have h4 : 4 ∣ rest.length := by
      simp only [List.length_cons] at h
      omega
    rw [chunks4] at hch
    rcases List.mem_cons.mp hch with rfl | hmem
    · rfl
    · exact ih h4 ch hmem

theorem chunks4_length : ∀ (l : List Nat), 4 ∣ l.length →
    (chunks4 l).length = l.length / 4 := by
  intro l
  induction l using chunks4.induct with
  | case1 => intro _; simp [chunks4]
  | case2 a0 =>
    intro h
    exfalso
    simp only [List.length_cons, List.length_nil] at h
    omega
  | case3 a0 a1 =>
    intro h
    exfalso
    simp only [List.length_cons, List.length_nil] at h
    omega
  | case4 a0 a1 a2 =>
    intro h
    exfalso
    simp only [List.length_cons, List.length_nil] at h
    omega
  | case5 a0 a1 a2 a3 rest ih =>
    intro h
    have h4 : 4 ∣ rest.length := by
      simp only [List.length_cons] at h
      omega
    rw [chunks4]
    simp only [List.length_cons, ih h4]
    omega

/-- If every chunk holds (at least) its 4 bytes, the fill loop cannot
panic: it converts `min (number of chunks) (number of pixels)` pixels and
leaves the rest of the destination untouched. -/
theorem fillPixels_full (cs : List (List Nat)) (px : List Color32)
    (h : ∀ ch ∈ cs, ch.length = 4) :
    fillPixels cs px
      = some ((cs.take px.length).map convChunk ++ px.drop cs.length) := by
  induction cs generalizing px with
  | nil => cases px <;> simp [fillPixels]
  | cons ch cs ih =>
    cases px with
    | nil => simp [fillPixels]
    | cons o os =>
      have hch : ch.length = 4 := h ch (List.mem_cons_self ch cs)
      obtain ⟨b0, b1, b2, b3, rfl⟩ := length_four_cases hch
      have ihos := ih os (fun d hd => h d (List.mem_cons_of_mem _ hd))
      simp [fillPixels, ihos, convChunk]

/-- Chunks beyond the destination's length are never consumed by the fill
loop. -/
theorem fillPixels_take (cs : List (List Nat)) (px : List Color32) :
    fillPixels (cs.take px.length) px = fillPixels cs px := by
  induction cs generalizing px with
  | nil => simp
  | cons ch cs ih =>
    cases px with
    | nil => simp [fillPixels]
    | cons o os => simp [fillPixels, List.take_succ_cons, ih]

theorem fillPixels_take_of_length (cs : List (List Nat)) (n : Nat) (px : List Color32)
    (hpx : px.length = n) : fillPixels (cs.take n) px = fillPixels cs px := by
  subst hpx
  exact fillPixels_take cs px

/-- Taking `4 * n` frame bytes takes the first `n` chunks. -/
theorem chunks4_take : ∀ (n : Nat) (l : List Nat),
    chunks4 (l.take (4 * n)) = (chunks4 l).take n := by
  intro n
  induction n with
  | zero => intro l; simp [chunks4]
  | succ n ih =>
    intro l
    rcases l with _ | ⟨a0, _ | ⟨a1, _ | ⟨a2, _ | ⟨a3, rest⟩⟩⟩⟩
    · simp [chunks4]
    · rw [List.take_of_length_le (by simp; omega)]
      rw [List.take_of_length_le (by rw [chunks4]; simp)]
    · rw [List.take_of_length_le (by simp; omega)]
      rw [List.take_of_length_le (by rw [chunks4]; simp)]
    · rw [List.take_of_length_le (by simp; omega)]
      rw [List.take_of_length_le (by rw [chunks4]; simp)]
    · have h4 : 4 * (n + 1) = 4 * n + 1 + 1 + 1 + 1 := by ring
      rw [h4]
      simp only [List.take_succ_cons]
      rw [chunks4, chunks4]
      simp only [List.take_succ_cons, ih rest]

theorem drop_replicate_color (n m : Nat) (x : Color32) :
    (List.replicate m x).drop n = List.replicate (m - n) x := by
  induction n generalizing m with
  | zero => simp
  | succ n ih =>
    cases m with
    | zero => simp
    | succ m => simp [List.replicate_succ, ih]

/-- Claim C9: the per-tick pixel conversion is total on whole-pixel
buffers: for a frame of 4-byte pixels (length divisible by 4), no matter
how its pixel count compares to width*height, the conversion never panics
(no out-of-bounds access), produces exactly width*height display pixels,
every display pixel beyond the available frame data stays BLACK, and any
frame bytes beyond width*height pixels are ignored (truncating the buffer
to width*height pixels gives the identical result). -/
theorem c9_conversion_total (frame : List Nat) (w h : Nat) (hdvd : 4 ∣ frame.length) :
    (∃ px, convertFrame frame w h = some px ∧ px.length = w * h
       ∧ ∀ j, frame.length / 4 ≤ j → j < w * h → px[j]? = some black)
  ∧ convertFrame frame w h = convertFrame (frame.take (4 * (w * h))) w h := by
  have hall := chunks4_all_four frame hdvd
  have hK : (chunks4 frame).length = frame.length / 4 := chunks4_length frame hdvd
  constructor
  · have hfull := fillPixels_full (chunks4 frame) (List.replicate (w * h) black) hall
    rw [List.length_replicate] at hfull
    refine ⟨_, hfull, ?_, ?_⟩
    · rw [List.length_append, List.length_map, List.length_take, drop_replicate_color,
        List.length_replicate]
      omega
    · intro j hj1 hj2
      have hminK : (((chunks4 frame).take (w * h)).map convChunk).length
          = frame.length / 4 := by
        rw [List.length_map, List.length_take, hK]
        omega
      rw [List.getElem?_append_right (by rw [hminK]; exact hj1)]
      rw [hminK, hK, drop_replicate_color, List.getElem?_replicate]
      rw [if_pos (by omega)]
  · show fillPixels (chunks4 frame) (List.replicate (w * h) black)
      = fillPixels (chunks4 (frame.take (4 * (w * h)))) (List.replicate (w * h) black)
    rw [chunks4_take]
    exact (fillPixels_take_of_length _ _ _ (List.length_replicate _ _)).symm

/-- Claim C9, witness: a one-pixel frame [10, 20, 30, 40] rendered into a
2-by-1 image converts without panic; the second pixel stays BLACK. -/
theorem c9_conversion_total_witness :
    (∃ px, convertFrame [10, 20, 30, 40] 2 1 = some px ∧ px.length = 2 * 1
       ∧ ∀ j, [10, 20, 30, 40].length / 4 ≤ j → j < 2 * 1 → px[j]? = some black)
  ∧ convertFrame [10, 20, 30, 40] 2 1
      = convertFrame ([10, 20, 30, 40].take (4 * (2 * 1))) 2 1 :=
  c9_conversion_total [10, 20, 30, 40] 2 1 (by decide)

/-- Claim C10: for (Num5, shift held) the decoder returns Char 53 (the
character b'5'), the same as without shift; the byte 37 (b'%') is returned
by `decode_key` for no (key, shift) input at all; and 37 is in the raw-text
allow-list, so b'%' is deliverable only through that path. -/
theorem c10_percent_unreachable :
    decode_key EKey.Num5 true = some (Key.Char 53)
  ∧ decode_key EKey.Num5 false = some (Key.Char 53)
  ∧ decide (∀ k s, decode_key k s ≠ some (Key.Char 37)) = true
  ∧ 37 ∈ RAW_CHARS :=
  ⟨rfl, rfl, by decide, by decide⟩

end Raven
